import Mathlib

/-!
# Verification of the rdp_api telemetry pipeline

Shallow embedding of the `rdp` package (frame decoder in
`rdp/sensor/reader.py`, entity store in `rdp/crud/crud.py`, ingestion loop
in `rdp/sensor/reader.py`) and proofs of the specification claims.

Modelling conventions:
* Bytes are `Nat` (each `< 256` in real frames); Python byte strings are
  `List Nat`.
* IEEE-754 single-precision floats are represented by their 32-bit
  pattern (a `Nat`): `struct.unpack("f", b)` is modelled as producing the
  little-endian word of the 4 input bytes, which is the float's bit
  pattern on the little-endian target platform.  The bit pattern fully
  determines the float, so claims about which bytes feed the value are
  preserved.
* Python exceptions are an explicit error type `PyErr`; a code path that
  raises is modelled as returning `Except.error` (or an explicit error
  component where the database state after the raise matters).
* `None` arguments are `Option.none`; Python truthiness for strings is
  "non-empty", for integers "non-zero".
-/

namespace RdpApi

/-- The exception kinds the embedded code paths can raise.  `typeError`
is Python's `TypeError` (e.g. `"TYPE_%d" % None`), `indexError` is an
out-of-range subscript, `integrityError` is `sqlalchemy.exc.IntegrityError`,
`noResultFound` is `sqlalchemy.exc.NoResultFound` (raised by `.one()`). -/
inductive PyErr where
  | typeError
  | indexError
  | integrityError
  | noResultFound
deriving DecidableEq

/-! ## Frame decoder (`Reader._run`, reader.py lines 39-51)

The Python loop `value_time |= test[i] << 8 * i` for `i in range(8)`
builds the little-endian integer of bytes `[0..8)` and raises `IndexError`
when an index is out of range; likewise `type_num` over `test[i + 8]` for
`i in range(4)`.  `struct.unpack("f", test[-4::])` takes the last four
bytes (Python's negative slice clamps: for buffers shorter than 4 it
yields the whole buffer) and fails unless exactly 4 bytes are supplied. -/

/-- Read `n` bytes of `t` starting at offset `off` as a little-endian
word, combining with `|||`/`<<<` as the source's `|=`/`<<` loop does;
`none` models the `IndexError` when a subscript is out of range. -/
def readLE (t : List Nat) (off : Nat) : Nat → Option Nat
  | 0 => some 0
  | n + 1 =>
    match t.get? off, readLE t (off + 1) n with
    | some b, some rest => some (b ||| (rest <<< 8))
    | _, _ => none

/-- Python's `test[-4::]`: the last four bytes, or the whole buffer when
it is shorter than four bytes. -/
def lastFour (t : List Nat) : List Nat := t.drop (t.length - 4)

/-- The little-endian word of a byte list (first byte least significant). -/
def leWord (bs : List Nat) : Nat := bs.foldr (fun b acc => b ||| (acc <<< 8)) 0

/-- `struct.unpack("f", bs)`: requires exactly 4 bytes, yields the float's
bit pattern (native little-endian byte order). -/
def unpackF32 (bs : List Nat) : Option Nat :=
  if bs.length = 4 then some (leWord bs) else none

/-- The decoding performed by one iteration of `Reader._run` on the buffer
returned by `f.read(16)`: timestamp, type identifier, value bit pattern.
`none` models an uncaught decode exception. -/
def decodeFrame (test : List Nat) : Option (Nat × Nat × Nat) := do
  let value_time ← readLE test 0 8
  let type_num ← readLE test 8 4
  let bits ← unpackF32 (lastFour test)
  return (value_time, type_num, bits)

theorem readLE_eq_of_le {t : List Nat} {off n : Nat} (h : off + n ≤ t.length) :
    readLE t off n = some (leWord ((t.drop off).take n)) := by
  induction n generalizing off with
  | zero => simp [readLE, leWord]
  | succ k ih =>
    have hoff : off < t.length := by omega
    have hget : t.get? off = some (t.get ⟨off, hoff⟩) := List.get?_eq_get hoff
    have hrest := @ih (off + 1) (by omega)
    have hdrop : t.drop off = t.get ⟨off, hoff⟩ :: t.drop (off + 1) :=
      List.drop_eq_getElem_cons hoff
    rw [readLE, hget, hrest, hdrop, List.take_succ_cons]
    simp [leWord]

theorem readLE_isSome_iff {t : List Nat} {off n : Nat} :
    (readLE t off n).isSome = true ↔ off + n ≤ t.length ∨ n = 0 := by
  induction n generalizing off with
  | zero => simp [readLE]
  | succ k ih =>
    constructor
    · intro h
      rw [readLE] at h
      cases hg : t.get? off with
      | none => rw [hg] at h; simp at h
      | some b =>
        rw [hg] at h
        cases hr : readLE t (off + 1) k with
        | none => rw [hr] at h; simp at h
        | some rest =>
          have : (readLE t (off + 1) k).isSome = true := by rw [hr]; rfl
          have hk := ih.mp this
          have hb : off < t.length := List.get?_eq_some.mp hg |>.1
          left; omega
    · intro h
      rcases h with h | h
      · have hb : off < t.length := by omega
        rw [readLE_eq_of_le h]; rfl
      · omega

theorem lastFour_eq_drop12 {t : List Nat} (h : t.length = 16) :
    lastFour t = t.drop 12 := by
  simp [lastFour, h]

theorem decodeFrame_isSome_iff (t : List Nat) :
    (decodeFrame t).isSome = true ↔ 12 ≤ t.length := by
  constructor
  · intro hs
    by_contra hlt
    push_neg at hlt
    rw [decodeFrame] at hs
    rcases Nat.lt_or_ge t.length 8 with h8 | h8
    · have hnone : readLE t 0 8 = none := by
        cases hr : readLE t 0 8 with
        | none => rfl
        | some v =>
          have hv : (readLE t 0 8).isSome = true := by rw [hr]; rfl
          rcases readLE_isSome_iff.mp hv with h | h <;> omega
      rw [hnone] at hs; simp at hs
    · have hnone : readLE t 8 4 = none := by
        cases hr : readLE t 8 4 with
        | none => rfl
        | some v =>
          have hv : (readLE t 8 4).isSome = true := by rw [hr]; rfl
          rcases readLE_isSome_iff.mp hv with h | h <;> omega
      have h1 : readLE t 0 8 = some (leWord ((t.drop 0).take 8)) :=
        readLE_eq_of_le (by omega)
      rw [h1, hnone] at hs; simp at hs
  · intro hlen
    have h1 : readLE t 0 8 = some (leWord ((t.drop 0).take 8)) :=
      readLE_eq_of_le (by omega)
    have h2 : readLE t 8 4 = some (leWord ((t.drop 8).take 4)) :=
      readLE_eq_of_le (by omega)
    have h3 : (lastFour t).length = 4 := by
      simp only [lastFour, List.length_drop]; omega
    rw [decodeFrame, h1, h2]
    simp [unpackF32, h3]

theorem decodeFrame_eq_of_len16 {t : List Nat} (h : t.length = 16) :
    decodeFrame t =
      some (leWord (t.take 8), leWord ((t.drop 8).take 4), leWord (t.drop 12)) := by
  have h1 : readLE t 0 8 = some (leWord ((t.drop 0).take 8)) :=
    readLE_eq_of_le (by omega)
  have h2 : readLE t 8 4 = some (leWord ((t.drop 8).take 4)) :=
    readLE_eq_of_le (by omega)
  have h3 : unpackF32 (lastFour t) = some (leWord (t.drop 12)) := by
    rw [lastFour_eq_drop12 h, unpackF32, if_pos (by simp [h])]
  rw [decodeFrame, h1, h2, h3]
  simp

/-- C1: a 16-byte frame decodes to the little-endian word of bytes
`[0..8)` (timestamp), the little-endian word of bytes `[8..12)` (type
identifier), and the float bit pattern formed from the last 4 bytes of
the buffer; the output is fully determined by those three byte slices,
and decoding the same buffer twice yields the same triple. -/
theorem decodeFrame_fields_c1 (t : List Nat) (h : t.length = 16) :
    decodeFrame t =
      some (leWord (t.take 8), leWord ((t.drop 8).take 4), leWord (t.drop 12)) ∧
    decodeFrame t = decodeFrame t :=
  ⟨decodeFrame_eq_of_len16 h, rfl⟩

/-- Witness for C1 at the concrete 16-byte frame `[0, 1, ..., 15]`. -/
theorem decodeFrame_fields_c1_witness :
    (List.range 16).length = 16 ∧
      decodeFrame (List.range 16) =
        some (leWord ((List.range 16).take 8),
          leWord (((List.range 16).drop 8).take 4),
          leWord ((List.range 16).drop 12)) :=
  ⟨by decide, (decodeFrame_fields_c1 (List.range 16) (by decide)).1⟩

/-- C9 counterexample: the 12-byte all-zero buffer is shorter than 16
bytes, yet the decoder succeeds on it (returning a triple) instead of
failing — so "every input shorter than 16 bytes fails" is false of the
code, and no distinguished `FrameTooShort` error exists in it at all. -/
theorem decodeFrame_short_c9_cex :
    (List.replicate 12 0).length < 16 ∧
      decodeFrame (List.replicate 12 0) = some (0, 0, 0) := by decide

/-- C9 (amended): the decoder fails exactly on buffers shorter than 12
bytes — and then with an untyped `IndexError`, there being no
`FrameTooShort` kind in the code; buffers of length 12 to 15 decode
successfully (their value field overlapping the type/time bytes), and in
particular decoding is total on every 16-byte input. -/
theorem decodeFrame_fail_iff_c9 (t : List Nat) :
    decodeFrame t = none ↔ t.length < 12 := by
  constructor
  · intro h
    by_contra hge
    push_neg at hge
    have := (decodeFrame_isSome_iff t).mpr hge
    rw [h] at this
    simp at this
  · intro h
    cases hd : decodeFrame t with
    | none => rfl
    | some v =>
      have hv : (decodeFrame t).isSome = true := by rw [hd]; rfl
      have := (decodeFrame_isSome_iff t).mp hv
      omega

/-- Witness for C9's amended statement: the empty read fails, while the
13-byte buffer decodes. -/
theorem decodeFrame_fail_iff_c9_witness :
    decodeFrame [] = none ∧ decodeFrame (List.replicate 13 0) ≠ none :=
  ⟨(decodeFrame_fail_iff_c9 []).mpr (by decide),
    fun h => by
      have := (decodeFrame_fail_iff_c9 (List.replicate 13 0)).mp h
      rw [List.length_replicate] at this
      omega⟩

/-! ## Entity store (`Crud`, crud.py)

Rows carry exactly the columns of the (spec-described) data model;
`StoreState` is the committed database contents.  The stray Python
attribute writes in `add_or_update_location` (`device_name` /
`device_description` on a `Location` instance) touch no column and hence
no part of `StoreState`. -/

structure ValueTypeRow where
  id : Nat
  type_name : String
  type_unit : String
deriving DecidableEq

structure DeviceRow where
  id : Nat
  device_name : String
  device_description : String
  location_id : Nat
deriving DecidableEq

structure LocationRow where
  id : Nat
  location_name : String
  location_description : String
deriving DecidableEq

/-- A measurement row; `value` is the float32 bit pattern (see the
module conventions). -/
structure ValueRow where
  id : Nat
  time : Nat
  value : Nat
  value_type_id : Nat
  device_id : Nat
deriving DecidableEq

structure StoreState where
  value_types : List ValueTypeRow
  devices : List DeviceRow
  locations : List LocationRow
  values : List ValueRow
deriving DecidableEq

def emptyStore : StoreState := ⟨[], [], [], []⟩

/-- Python truthiness of an optional string: `None` and `""` are falsy. -/
def truthyS : Option String → Bool
  | none => false
  | some s => !(s == "")

/-- Modelled from the spec: `rdp/crud/model.py` (the SQLAlchemy table
declarations with their integer primary keys) is not under `src/`; a row
committed without an explicit id receives a fresh backend-assigned id,
max of the existing ids plus one, per standard SQLite/SQLAlchemy identity
semantics and the spec's "ids, once assigned, are stable and never
reused". -/
def nextId (ids : List Nat) : Nat := ids.foldr max 0 + 1

/-- Python `"TYPE_%d" % x`-style formatting: with `x = None` it raises
`TypeError`. -/
def pyFormatId (pfx : String) : Option Nat → Except PyErr String
  | some i => .ok (pfx ++ toString i)
  | none => .error .typeError

/-- `Crud.add_or_update_value_type`.  The lookup
`select(ValueType).where(ValueType.id == value_type_id)` matches nothing
when the argument is `None` (SQL `IS NULL` on a non-null key).  The
name/unit if/elif chains run in source order, so a placeholder needed
with `value_type_id = None` raises `TypeError` (from `"TYPE_%d" % None`)
before anything is committed.  A new row committed with `id = None`
receives a fresh backend-assigned id. -/
def add_or_update_value_type (s : StoreState) (value_type_id : Option Nat)
    (value_type_name value_type_unit : Option String) :
    Except PyErr (ValueTypeRow × StoreState) :=
  let found := s.value_types.find? (fun r => value_type_id == some r.id)
  let cur : ValueTypeRow :=
    match found with
    | some r => r
    | none => { id := 0, type_name := "", type_unit := "" }
  let nameRes : Except PyErr String :=
    if truthyS value_type_name then .ok (value_type_name.getD "")
    else if cur.type_name = "" then pyFormatId "TYPE_" value_type_id
    else .ok cur.type_name
  let unitRes : Except PyErr String :=
    if truthyS value_type_unit then .ok (value_type_unit.getD "")
    else if cur.type_unit = "" then pyFormatId "UNIT_" value_type_id
    else .ok cur.type_unit
  match nameRes, unitRes with
  | .error e, _ => .error e
  | .ok _, .error e => .error e
  | .ok nm, .ok un =>
    match found with
    | some r =>
      let row : ValueTypeRow := { r with type_name := nm, type_unit := un }
      .ok (row,
        { s with value_types := s.value_types.map (fun x => if x.id = r.id then row else x) })
    | none =>
      let newId : Nat :=
        match value_type_id with
        | some i => i
        | none => nextId (s.value_types.map (·.id))
      let row : ValueTypeRow := { id := newId, type_name := nm, type_unit := un }
      .ok (row, { s with value_types := s.value_types ++ [row] })

/-- `Crud.add_value`.  The `ValueType` is committed by the inner
`add_or_update_value_type` call in its own session before the `Value`
insert is attempted, so on `IntegrityError` the upserted type stays
persisted: the result pairs the post-state with the raised error, if any.

Modelled from the spec: the uniqueness constraint that makes the `Value`
commit raise `IntegrityError` lives in `rdp/crud/model.py`, which is not
under `src/`; following the spec's recommended uniqueness key, the insert
conflicts exactly when a `Value` with the same
`(device_id, value_type_id, time)` already exists. -/
def add_value (s : StoreState) (value_time value_type : Nat) (value_value : Nat)
    (device_id : Nat) : StoreState × Option PyErr :=
  match add_or_update_value_type s (some value_type) none none with
  | .error e => (s, some e)
  | .ok (db_type, s1) =>
    if s1.values.any (fun v =>
        v.device_id == device_id && v.value_type_id == value_type && v.time == value_time) then
      (s1, some .integrityError)
    else
      let row : ValueRow :=
        { id := nextId (s1.values.map (·.id)), time := value_time,
          value := value_value, value_type_id := db_type.id, device_id := device_id }
      ({ s1 with values := s1.values ++ [row] }, none)

/-- Ascending-time order used by `order_by(Value.time)`. -/
def timeLE (a b : ValueRow) : Prop := a.time ≤ b.time

instance : DecidableRel timeLE := fun a b => Nat.decLe a.time b.time

instance : IsTotal ValueRow timeLE := ⟨fun a b => Nat.le_total a.time b.time⟩

instance : IsTrans ValueRow timeLE := ⟨fun _ _ _ h1 h2 => Nat.le_trans h1 h2⟩

/-- The conjunction of `get_values`' where-clauses: when `value_type_id`
is supplied, the inner join through `Value.value_type` additionally keeps
a row only when a `ValueType` with that id exists. -/
def valueFilter (s : StoreState) (value_type_id startArg endArg : Option Nat)
    (v : ValueRow) : Bool :=
  (match value_type_id with
   | none => true
   | some t => v.value_type_id == t && s.value_types.any (fun r => r.id == t)) &&
  (match startArg with
   | none => true
   | some a => decide (a ≤ v.time)) &&
  (match endArg with
   | none => true
   | some b => decide (v.time ≤ b))

/-- `Crud.get_values`: conjunctive filters, result ordered by ascending
time.  The `Except` return type records that a query could raise — no
path in this function does: it returns `.ok` on every input. -/
def get_values (s : StoreState) (value_type_id startArg endArg : Option Nat) :
    Except PyErr (List ValueRow) :=
  .ok (List.insertionSort timeLE (s.values.filter (valueFilter s value_type_id startArg endArg)))

/-- `Crud.get_value_type` (`.one()` raises `NoResultFound` when no row
matches; ids are primary keys, so the multiple-rows case cannot arise). -/
def get_value_type (s : StoreState) (value_type_id : Nat) : Except PyErr ValueTypeRow :=
  match s.value_types.find? (fun r => r.id == value_type_id) with
  | some r => .ok r
  | none => .error .noResultFound

def get_device (s : StoreState) (device_id : Nat) : Except PyErr DeviceRow :=
  match s.devices.find? (fun d => d.id == device_id) with
  | some d => .ok d
  | none => .error .noResultFound

def get_devices (s : StoreState) : List DeviceRow := s.devices

/-- `Crud.add_or_update_device`.  When the lookup misses, the source
constructs `Device(device_name=..., device_description=..., location_id=...)`
without the supplied `device_id`, so the committed row receives a fresh
backend-assigned id (see `nextId`), not the supplied one.  Python
truthiness gates the update branch: empty strings and zero leave fields
untouched.  Returns `db_type.id` and the post-state. -/
def add_or_update_device (s : StoreState) (device_name device_description : String)
    (location_id : Nat) (device_id : Option Nat) : Nat × StoreState :=
  match s.devices.find? (fun d => device_id == some d.id) with
  | some d =>
    let row : DeviceRow :=
      { d with
        device_name := if device_name ≠ "" then device_name else d.device_name,
        device_description :=
          if device_description ≠ "" then device_description else d.device_description,
        location_id := if location_id ≠ 0 then location_id else d.location_id }
    (d.id, { s with devices := s.devices.map (fun x => if x.id = d.id then row else x) })
  | none =>
    let nid := nextId (s.devices.map (·.id))
    let row : DeviceRow :=
      { id := nid, device_name := device_name,
        device_description := device_description, location_id := location_id }
    (nid, { s with devices := s.devices ++ [row] })

/-- `Crud.add_or_update_location`.  The source's lookup is
`select(Location).where(Device.id == location_id)` — a cross join that
yields every `Location` row whenever a `Device` with the given id exists;
`.first()` then picks the first location in table order, modelled as the
head of the list.  On that branch the source assigns
`db_type.device_name` / `db_type.device_description`, which are not
columns of `Location`, so the commit persists no field change.  On the
create branch the constructor receives the correct column keywords but no
id, so a fresh backend-assigned id. -/
def add_or_update_location (s : StoreState) (location_name location_description : String)
    (location_id : Option Nat) : Nat × StoreState :=
  let found :=
    if s.devices.any (fun d => location_id == some d.id) then s.locations.head? else none
  match found with
  | some loc => (loc.id, s)
  | none =>
    let nid := nextId (s.locations.map (·.id))
    (nid, { s with locations := s.locations ++
      [{ id := nid, location_name := location_name,
         location_description := location_description }] })

def get_location (s : StoreState) (location_id : Nat) : Except PyErr LocationRow :=
  match s.locations.find? (fun l => l.id == location_id) with
  | some l => .ok l
  | none => .error .noResultFound

/-! ## Ingestion loop (`Reader._run`, reader.py lines 35-69)

Each while-iteration reads one frame from the device and consumes one
pick of `random.choice`; a run is driven by a list of such inputs, the
list ending when the loop-top `self._thread is not None` check observes
the stop request.  Returning normally from `_run` ends the background
thread — the `Stopped` lifecycle state; an exception escaping `_run`
is the `crashed` outcome. -/

/-- The per-iteration inputs of `Reader._run`: the bytes `f.read(16)`
returned and the pick `random.choice` made (any natural, reduced modulo
the device count). -/
structure LoopIter where
  frame : List Nat
  choice : Nat
deriving DecidableEq

inductive LoopOutcome where
  | stopped
  | crashed (e : PyErr)
deriving DecidableEq

/-- `Reader._run`: decode the frame (an undersized read raises
`IndexError` out of the thread), pick a random device
(`random.choice` on an empty `get_devices()` raises `IndexError`), call
`add_value`; `IntegrityError` from it is caught and `break`s the loop
(graceful stop), any other escape crashes; on success the next iteration
runs (the `time.sleep` and the 100-iteration log milestone have no
behavioural effect and are not modelled). -/
def runLoop : StoreState → List LoopIter → StoreState × LoopOutcome
  | s, [] => (s, .stopped)
  | s, it :: rest =>
    match decodeFrame it.frame with
    | none => (s, .crashed .indexError)
    | some (value_time, type_num, bits) =>
      match s.devices with
      | [] => (s, .crashed .indexError)
      | d0 :: ds =>
        let random_device := ((d0 :: ds).getD (it.choice % (ds.length + 1)) d0).id
        match add_value s value_time type_num bits random_device with
        | (s1, some .integrityError) => (s1, .stopped)
        | (s1, some e) => (s1, .crashed e)
        | (s1, none) => runLoop s1 rest

/-! ## Store lemmas -/

theorem find?_replace_by_id {α : Type} (idOf : α → Nat) (l : List α) (i : Nat) (r row : α)
    (hrow : idOf row = i)
    (hf : l.find? (fun x => (some i : Option Nat) == some (idOf x)) = some r) :
    (l.map (fun x => if idOf x = idOf r then row else x)).find? (fun x => idOf x == i) =
      some row := by
  have hri : i = idOf r := by
    have := List.find?_some hf
    simpa using this
  induction l with
  | nil => simp at hf
  | cons a l ih =>
    by_cases ha : idOf a = i
    · simp only [List.find?_cons, show ((some i : Option Nat) == some (idOf a)) = true by
        simp [ha]] at hf
      have hra : r = a := by injection hf with h; exact h.symm
      subst hra
      simp [List.find?_cons, hrow]
    · have har : idOf a ≠ idOf r := fun h => ha (h.trans hri.symm)
      simp only [List.find?_cons, show ((some i : Option Nat) == some (idOf a)) = false by
        simp [Ne.symm ha]] at hf
      simp only [List.map_cons, if_neg har, List.find?_cons,
        show (idOf a == i) = false by simp [ha]]
      exact ih hf

theorem find?_append_new {α : Type} (idOf : α → Nat) (l : List α) (i : Nat) (row : α)
    (hrow : idOf row = i)
    (hf : l.find? (fun x => (some i : Option Nat) == some (idOf x)) = none) :
    (l ++ [row]).find? (fun x => idOf x == i) = some row := by
  induction l with
  | nil => simp [List.find?_cons, hrow]
  | cons a l ih =>
    have hall := List.find?_eq_none.mp hf
    have ha : idOf a ≠ i := by
      intro h
      exact absurd (by simp [h] : ((some i : Option Nat) == some (idOf a)) = true)
        (hall a (List.mem_cons_self a l))
    rw [List.cons_append]
    simp only [List.find?_cons, show (idOf a == i) = false by simp [ha]]
    refine ih ?_
    rw [List.find?_eq_none]
    intro x hx
    exact hall x (List.mem_cons_of_mem a hx)

/-- `add_or_update_value_type` called with a concrete id and no name/unit
(the `add_value` call pattern) always succeeds, touches only the
`value_types` table, and afterwards `get_value_type` finds a row with the
requested id. -/
theorem upsert_vt_some_ok (s : StoreState) (i : Nat) :
    ∃ row s1, add_or_update_value_type s (some i) none none = Except.ok (row, s1) ∧
      row.id = i ∧ s1.devices = s.devices ∧ s1.values = s.values ∧
      s1.locations = s.locations ∧ get_value_type s1 i = Except.ok row := by
  cases hf : s.value_types.find? (fun r => (some i : Option Nat) == some r.id) with
  | none =>
    refine ⟨⟨i, "TYPE_" ++ toString i, "UNIT_" ++ toString i⟩,
      ⟨s.value_types ++ [⟨i, "TYPE_" ++ toString i, "UNIT_" ++ toString i⟩],
        s.devices, s.locations, s.values⟩,
      ?_, rfl, rfl, rfl, rfl, ?_⟩
    · simp only [add_or_update_value_type, hf, truthyS, pyFormatId]
      rfl
    · have hfind := find?_append_new ValueTypeRow.id s.value_types i
        ⟨i, "TYPE_" ++ toString i, "UNIT_" ++ toString i⟩ rfl hf
      simp only [get_value_type, hfind]
  | some r =>
    have hri : i = r.id := by
      have := List.find?_some hf
      simpa using this
    refine ⟨⟨r.id, if r.type_name = "" then "TYPE_" ++ toString i else r.type_name,
        if r.type_unit = "" then "UNIT_" ++ toString i else r.type_unit⟩,
      ⟨s.value_types.map (fun x =>
          if x.id = r.id then
            ⟨r.id, if r.type_name = "" then "TYPE_" ++ toString i else r.type_name,
              if r.type_unit = "" then "UNIT_" ++ toString i else r.type_unit⟩
          else x),
        s.devices, s.locations, s.values⟩,
      ?_, hri.symm, rfl, rfl, rfl, ?_⟩
    · have hf2 : s.value_types.find? (fun r => i == r.id) = some r := by
        simpa using hf
      by_cases hn : r.type_name = "" <;> by_cases hu : r.type_unit = "" <;>
        simp [add_or_update_value_type, hf2, truthyS, pyFormatId, hn, hu]
    · have hfind := find?_replace_by_id ValueTypeRow.id s.value_types i r
        ⟨r.id, if r.type_name = "" then "TYPE_" ++ toString i else r.type_name,
          if r.type_unit = "" then "UNIT_" ++ toString i else r.type_unit⟩
        hri.symm hf
      simp only [get_value_type, hfind]

/-- When no `ValueType` with the given id exists, the upsert used by
`add_value` commits exactly the placeholder row. -/
theorem upsert_vt_absent_eq (s : StoreState) (i : Nat)
    (habs : ∀ vt ∈ s.value_types, vt.id ≠ i) :
    add_or_update_value_type s (some i) none none =
      Except.ok (⟨i, "TYPE_" ++ toString i, "UNIT_" ++ toString i⟩,
        ⟨s.value_types ++ [⟨i, "TYPE_" ++ toString i, "UNIT_" ++ toString i⟩],
          s.devices, s.locations, s.values⟩) := by
  have hf : s.value_types.find? (fun r => (some i : Option Nat) == some r.id) = none := by
    rw [List.find?_eq_none]
    intro x hx h
    have hix : i = x.id := by simpa using h
    exact habs x hx hix.symm
  simp only [add_or_update_value_type, hf, truthyS, pyFormatId]
  rfl

/-- C2: `add_value` on a store without the referenced `ValueType` first
commits the placeholder `ValueType{id, TYPE_<id>, UNIT_<id>}` and then
inserts exactly one new `Value` row carrying the given time, value,
value-type id and device id; `get_value_type` afterwards returns exactly
the placeholder.  `hinv` is the store's referential-integrity invariant
(every persisted `Value` references an existing `ValueType`), which every
reachable state satisfies since values are only inserted by `add_value`
itself. -/
theorem add_value_autocreate_c2 (s : StoreState) (t ty v d : Nat)
    (habs : ∀ vt ∈ s.value_types, vt.id ≠ ty)
    (hinv : ∀ w ∈ s.values, ∃ vt ∈ s.value_types, vt.id = w.value_type_id) :
    add_value s t ty v d =
      (⟨s.value_types ++ [⟨ty, "TYPE_" ++ toString ty, "UNIT_" ++ toString ty⟩],
        s.devices, s.locations,
        s.values ++ [⟨nextId (s.values.map (·.id)), t, v, ty, d⟩]⟩, none) ∧
    get_value_type (add_value s t ty v d).1 ty =
      Except.ok ⟨ty, "TYPE_" ++ toString ty, "UNIT_" ++ toString ty⟩ := by
  have hupT := upsert_vt_absent_eq s ty habs
  have hnoconf : (s.values.any fun w =>
      w.device_id == d && w.value_type_id == ty && w.time == t) = false := by
    rw [List.any_eq_false]
    intro w hw hcontra
    obtain ⟨vt, hvt, hvtid⟩ := hinv w hw
    have hwt : w.value_type_id = ty := by
      simp only [Bool.and_eq_true, beq_iff_eq] at hcontra
      exact hcontra.1.2
    exact habs vt hvt (hvtid.trans hwt)
  have heq : add_value s t ty v d =
      (⟨s.value_types ++ [⟨ty, "TYPE_" ++ toString ty, "UNIT_" ++ toString ty⟩],
        s.devices, s.locations,
        s.values ++ [⟨nextId (s.values.map (·.id)), t, v, ty, d⟩]⟩, none) := by
    simp only [add_value, hupT, hnoconf]
    rfl
  refine ⟨heq, ?_⟩
  rw [heq]
  have hf : s.value_types.find? (fun r => (some ty : Option Nat) == some r.id) = none := by
    rw [List.find?_eq_none]
    intro x hx h
    have hix : ty = x.id := by simpa using h
    exact habs x hx hix.symm
  have hfind := find?_append_new ValueTypeRow.id s.value_types ty
    ⟨ty, "TYPE_" ++ toString ty, "UNIT_" ++ toString ty⟩ rfl hf
  simp only [get_value_type, hfind]

/-- Witness for C2 on a store holding one device and one unrelated
value type. -/
theorem add_value_autocreate_c2_witness :
    add_value ⟨[⟨7, "Temp", "C"⟩], [⟨1, "Device 1", "First Device", 1⟩], [], []⟩
        100 42 15 1 =
      (⟨[⟨7, "Temp", "C"⟩, ⟨42, "TYPE_42", "UNIT_42"⟩],
        [⟨1, "Device 1", "First Device", 1⟩], [], [⟨1, 100, 15, 42, 1⟩]⟩, none) := by
  have h := (add_value_autocreate_c2
    ⟨[⟨7, "Temp", "C"⟩], [⟨1, "Device 1", "First Device", 1⟩], [], []⟩
    100 42 15 1 (by decide) (by simp)).1
  simpa using h

/-- `add_value` when the (spec-modelled) uniqueness key
`(device_id, value_type_id, time)` conflicts: raises `IntegrityError`,
inserts no `Value`, but keeps the independently committed `ValueType`. -/
theorem add_value_conflict (s : StoreState) (t ty v d : Nat)
    (hconf : ∃ w ∈ s.values, w.device_id = d ∧ w.value_type_id = ty ∧ w.time = t) :
    ∃ s1, add_value s t ty v d = (s1, some .integrityError) ∧ s1.values = s.values ∧
      s1.devices = s.devices ∧ ∃ r, get_value_type s1 ty = Except.ok r ∧ r.id = ty := by
  obtain ⟨row, s1, hup, hid, hdev, hval, hloc, hget⟩ := upsert_vt_some_ok s ty
  have hconf1 : (s1.values.any fun w =>
      w.device_id == d && w.value_type_id == ty && w.time == t) = true := by
    rw [hval, List.any_eq_true]
    obtain ⟨w, hw, h1, h2, h3⟩ := hconf
    exact ⟨w, hw, by simp [h1, h2, h3]⟩
  refine ⟨s1, ?_, hval, hdev, row, hget, hid⟩
  simp only [add_value, hup, hconf1, if_true]

/-- `add_value` never touches the `devices` table, and the only error it
can raise is `IntegrityError`. -/
theorem add_value_shape (s : StoreState) (t ty v d : Nat) :
    (add_value s t ty v d).1.devices = s.devices ∧
      ((add_value s t ty v d).2 = none ∨
        (add_value s t ty v d).2 = some .integrityError) := by
  obtain ⟨row, s1, hup, hid, hdev, hval, hloc, hget⟩ := upsert_vt_some_ok s ty
  by_cases hc : (s1.values.any fun w =>
      w.device_id == d && w.value_type_id == ty && w.time == t) = true
  · constructor
    · simp only [add_value, hup, hc, if_true]
      exact hdev
    · right
      simp only [add_value, hup, hc, if_true]
  · have hcf : (s1.values.any fun w =>
        w.device_id == d && w.value_type_id == ty && w.time == t) = false :=
      Bool.eq_false_iff.mpr hc
    constructor
    · simp only [add_value, hup, hcf, Bool.false_eq_true, if_false]
      exact hdev
    · left
      simp only [add_value, hup, hcf, Bool.false_eq_true, if_false]

/-- C10: when the `Value` insert of `add_value` fails with
`IntegrityError`, the `ValueType` upserted beforehand in its own
committed session remains persisted — `add_value` is not atomic across
its two writes: the post-state has no new `Value` row but answers
`get_value_type` for the referenced id. -/
theorem add_value_partial_commit_c10 (s : StoreState) (t ty v d : Nat)
    (hconf : ∃ w ∈ s.values, w.device_id = d ∧ w.value_type_id = ty ∧ w.time = t) :
    ∃ s1, add_value s t ty v d = (s1, some .integrityError) ∧
      s1.values = s.values ∧ ∃ r, get_value_type s1 ty = Except.ok r ∧ r.id = ty := by
  obtain ⟨s1, heq, hval, hdev, r, hget, hid⟩ := add_value_conflict s t ty v d hconf
  exact ⟨s1, heq, hval, r, hget, hid⟩

/-- Witness for C10: the conflicting insert on a one-value store. -/
theorem add_value_partial_commit_c10_witness :
    ∃ s1, add_value ⟨[], [], [], [⟨1, 100, 15, 42, 1⟩]⟩ 100 42 99 1 =
        (s1, some .integrityError) ∧
      s1.values = [⟨1, 100, 15, 42, 1⟩] ∧
      ∃ r, get_value_type s1 42 = Except.ok r ∧ r.id = 42 := by
  obtain ⟨s1, heq, hval, r, hget, hid⟩ := add_value_partial_commit_c10
    ⟨[], [], [], [⟨1, 100, 15, 42, 1⟩]⟩ 100 42 99 1
    ⟨⟨1, 100, 15, 42, 1⟩, by simp, rfl, rfl, rfl⟩
  exact ⟨s1, heq, hval, r, hget, hid⟩

/-! ## Ingestion-loop lemmas -/

theorem getD_mem {α : Type} (l : List α) (n : Nat) (d : α) (hd : d ∈ l) :
    l.getD n d ∈ l := by
  rw [List.getD_eq_getElem?_getD]
  cases hg : l[n]? with
  | none => simpa using hd
  | some x =>
    have hx : x ∈ l := List.getElem?_mem hg
    simpa using hx

/-- C6: a run of the ingestion loop whose frames are all long enough to
decode and whose device table is non-empty always ends in the graceful
`stopped` outcome — in particular an `IntegrityError` raised by
`add_value` is swallowed, never `crashed`; and when the very next
`add_value` is bound to conflict (whichever device the random pick
selects), the loop stops right there: outcome `stopped`, the remaining
iterations unprocessed and no `Value` row added. -/
theorem loop_swallow_c6 :
    (∀ s iters, (∀ it ∈ iters, 12 ≤ it.frame.length) → s.devices ≠ [] →
      (runLoop s iters).2 = LoopOutcome.stopped) ∧
    (∀ s (it : LoopIter) rest t0 ty0 b0, decodeFrame it.frame = some (t0, ty0, b0) →
      (∀ dv ∈ s.devices, ∃ w ∈ s.values, w.device_id = dv.id ∧
        w.value_type_id = ty0 ∧ w.time = t0) →
      s.devices ≠ [] →
      (runLoop s (it :: rest)).2 = LoopOutcome.stopped ∧
      (runLoop s (it :: rest)).1.values = s.values) := by
  constructor
  · intro s iters
    induction iters generalizing s with
    | nil => intro _ _; rfl
    | cons it rest ih =>
      intro hfr hdev
      have hdec : (decodeFrame it.frame).isSome = true :=
        (decodeFrame_isSome_iff _).mpr (hfr it (List.mem_cons_self it rest))
      obtain ⟨⟨t0, ty0, b0⟩, hd⟩ := Option.isSome_iff_exists.mp hdec
      cases hds : s.devices with
      | nil => exact absurd hds hdev
      | cons d0 ds =>
        have hshape := add_value_shape s t0 ty0 b0
          (((d0 :: ds).getD (it.choice % (ds.length + 1)) d0).id)
        cases hadd : add_value s t0 ty0 b0
            (((d0 :: ds).getD (it.choice % (ds.length + 1)) d0).id) with
        | mk s1 e =>
          rw [hadd] at hshape
          rcases hshape with ⟨hdev1, herr⟩
          simp only [runLoop, hd, hds, hadd]
          rcases herr with he | he <;> simp only at he <;> subst he
          · exact ih s1 (fun x hx => hfr x (List.mem_cons_of_mem it hx))
              (by rw [hdev1, hds]; exact fun h => List.cons_ne_nil d0 ds h)
          · rfl
  · intro s it rest t0 ty0 b0 hd hall hdev
    cases hds : s.devices with
    | nil => exact absurd hds hdev
    | cons d0 ds =>
      have hmem : (d0 :: ds).getD (it.choice % (ds.length + 1)) d0 ∈ d0 :: ds :=
        getD_mem _ _ _ (List.mem_cons_self d0 ds)
      have hmem' : (d0 :: ds).getD (it.choice % (ds.length + 1)) d0 ∈ s.devices := by
        rw [hds]; exact hmem
      obtain ⟨w, hw, h1, h2, h3⟩ := hall _ hmem'
      obtain ⟨s1, heq, hval, hdev1, r, hget, hid⟩ := add_value_conflict s t0 ty0 b0
        (((d0 :: ds).getD (it.choice % (ds.length + 1)) d0).id)
        ⟨w, hw, h1, h2, h3⟩
      simp only [runLoop, hd, hds, heq]
      exact ⟨trivial, hval⟩

/-- Witness for C6: one well-formed frame, one device, starting from an
empty store. -/
theorem loop_swallow_c6_witness :
    (runLoop ⟨[], [⟨1, "Device 1", "First Device", 1⟩], [], []⟩
      [⟨List.replicate 16 0, 0⟩]).2 = LoopOutcome.stopped :=
  loop_swallow_c6.1 ⟨[], [⟨1, "Device 1", "First Device", 1⟩], [], []⟩
    [⟨List.replicate 16 0, 0⟩] (by decide) (by decide)

/-! ## Retrieval claims -/

/-- The spec's filter-correctness scenario: values at times 10, 20, 30
for type 1 and time 15 for type 2. -/
def demoState : StoreState :=
  ⟨[⟨1, "TYPE_1", "UNIT_1"⟩, ⟨2, "TYPE_2", "UNIT_2"⟩],
    [⟨1, "Device 1", "First Device", 1⟩], [],
    [⟨1, 10, 0, 1, 1⟩, ⟨2, 20, 0, 1, 1⟩, ⟨3, 30, 0, 1, 1⟩, ⟨4, 15, 0, 2, 1⟩]⟩

/-- C3: under the store's referential-integrity invariant (every `Value`
references an existing `ValueType` — maintained by `add_value`, the only
insertion path), `get_values` returns exactly the rows satisfying every
supplied filter conjunctively (type equality, `start ≤ time`,
`time ≤ end`), ordered by ascending time, omitted filters passing all
rows; in particular on the spec's scenario the query
with type_id 1, start 15 and end 25 returns exactly the time-20
record. -/
theorem get_values_filters_c3 :
    (∀ s a b c, (∀ w ∈ s.values, ∃ vt ∈ s.value_types, vt.id = w.value_type_id) →
      ∃ l, get_values s a b c = Except.ok l ∧ List.Sorted timeLE l ∧
        (∀ v, v ∈ l ↔ v ∈ s.values ∧
          (∀ t0, a = some t0 → v.value_type_id = t0) ∧
          (∀ x, b = some x → x ≤ v.time) ∧
          (∀ y, c = some y → v.time ≤ y))) ∧
    get_values demoState (some 1) (some 15) (some 25) =
      Except.ok [⟨2, 20, 0, 1, 1⟩] := by
  constructor
  · intro s a b c hinv
    refine ⟨_, rfl, List.sorted_insertionSort timeLE _, ?_⟩
    intro v
    rw [List.mem_insertionSort, List.mem_filter]
    constructor
    · rintro ⟨hv, hfl⟩
      simp only [valueFilter, Bool.and_eq_true] at hfl
      obtain ⟨⟨hX, hY⟩, hZ⟩ := hfl
      refine ⟨hv, ?_, ?_, ?_⟩
      · intro t0 ha
        subst ha
        simp only [Bool.and_eq_true, beq_iff_eq] at hX
        exact hX.1
      · intro x hb
        subst hb
        simpa using hY
      · intro y hc
        subst hc
        simpa using hZ
    · rintro ⟨hv, h1, h2, h3⟩
      refine ⟨hv, ?_⟩
      simp only [valueFilter, Bool.and_eq_true]
      refine ⟨⟨?_, ?_⟩, ?_⟩
      · cases a with
        | none => rfl
        | some t0 =>
          have ht := h1 t0 rfl
          obtain ⟨vt, hvt, hvtid⟩ := hinv v hv
          simp only [Bool.and_eq_true, beq_iff_eq]
          refine ⟨ht, ?_⟩
          rw [List.any_eq_true]
          exact ⟨vt, hvt, by simp [hvtid, ht]⟩
      · cases b with
        | none => rfl
        | some x => simpa using h2 x rfl
      · cases c with
        | none => rfl
        | some y => simpa using h3 y rfl
  · rfl

/-- Witness for C3 applying the universal part on the demo store. -/
theorem get_values_filters_c3_witness :
    ∃ l, get_values demoState (some 1) (some 15) (some 25) = Except.ok l ∧
      List.Sorted timeLE l ∧
      (∀ v, v ∈ l ↔ v ∈ demoState.values ∧
        (∀ t0, (some 1 : Option Nat) = some t0 → v.value_type_id = t0) ∧
        (∀ x, (some 15 : Option Nat) = some x → x ≤ v.time) ∧
        (∀ y, (some 25 : Option Nat) = some y → v.time ≤ y)) :=
  get_values_filters_c3.1 demoState (some 1) (some 15) (some 25) (by decide)

/-- C7 counterexample: with an empty store, `get_values` with type_id 1
references a `ValueType` that does not exist, yet the call does not fail
with `NoResultFound` — it returns the empty sequence. -/
theorem get_values_unknown_type_c7_cex :
    get_values emptyStore (some 1) none none = Except.ok [] ∧
      get_values emptyStore (some 1) none none ≠ Except.error PyErr.noResultFound := by
  refine ⟨rfl, ?_⟩
  intro h
  rw [show get_values emptyStore (some 1) none none = Except.ok [] from rfl] at h
  exact Except.noConfusion h

/-- C7 (amended): `get_values` never fails — it returns `.ok` on every
store and filter combination; when the supplied `type_id` references a
`ValueType` absent from the store, the inner join simply eliminates every
row and the result is the empty sequence, indistinguishable from "no
rows match". -/
theorem get_values_no_notfound_c7 :
    (∀ s a b c, ∃ l, get_values s a b c = Except.ok l) ∧
    (∀ s t0 b c, (∀ vt ∈ s.value_types, vt.id ≠ t0) →
      get_values s (some t0) b c = Except.ok []) := by
  constructor
  · intro s a b c
    exact ⟨_, rfl⟩
  · intro s t0 b c habs
    have hfil : s.values.filter (valueFilter s (some t0) b c) = [] := by
      rw [List.filter_eq_nil_iff]
      intro v hv
      simp only [valueFilter, Bool.and_eq_true]
      rintro ⟨⟨hX, hY⟩, hZ⟩
      have hany := hX.2
      rw [List.any_eq_true] at hany
      obtain ⟨vt, hvt, hbeq⟩ := hany
      exact habs vt hvt (by simpa using hbeq)
    simp only [get_values, hfil]
    rfl

/-- Witness for C7's amended statement on the empty store. -/
theorem get_values_no_notfound_c7_witness :
    get_values emptyStore (some 3) none none = Except.ok [] :=
  get_values_no_notfound_c7.2 emptyStore 3 none none (by simp [emptyStore])

/-! ## Upsert claims -/

/-- C4 counterexample: on an empty store, `add_or_update_device` with
supplied id 5 creates the row with backend id 1, not 5, and
`get_device 5` afterwards fails — refuting "creates a new Device row
whose id equals the supplied id". -/
theorem upsert_device_ignores_id_c4_cex :
    add_or_update_device emptyStore "N" "D" 7 (some 5) =
      (1, ⟨[], [⟨1, "N", "D", 7⟩], [], []⟩) ∧
    get_device (add_or_update_device emptyStore "N" "D" 7 (some 5)).2 5 =
      Except.error PyErr.noResultFound :=
  ⟨rfl, rfl⟩

/-- C4 (amended): when no `Device` with the supplied id exists, a new row
is created with a fresh backend-assigned id — the supplied id is ignored,
because the source constructs the `Device` without passing it; when the
lookup finds a row, exactly the truthy supplied fields are updated and
falsy ones (empty string, zero, omission) leave the stored values
untouched, the id unchanged. -/
theorem upsert_device_c4 :
    (∀ s nm ds loc i, (∀ dv ∈ s.devices, dv.id ≠ i) →
      add_or_update_device s nm ds loc (some i) =
        (nextId (s.devices.map (·.id)),
          ⟨s.value_types, s.devices ++ [⟨nextId (s.devices.map (·.id)), nm, ds, loc⟩],
            s.locations, s.values⟩)) ∧
    (∀ s nm ds loc (dv : DeviceRow),
      s.devices.find? (fun x => (some dv.id : Option Nat) == some x.id) = some dv →
      ∃ s1, add_or_update_device s nm ds loc (some dv.id) = (dv.id, s1) ∧
        s1.values = s.values ∧ s1.value_types = s.value_types ∧
        get_device s1 dv.id = Except.ok
          ⟨dv.id, if nm = "" then dv.device_name else nm,
            if ds = "" then dv.device_description else ds,
            if loc = 0 then dv.location_id else loc⟩) := by
  constructor
  · intro s nm ds loc i habs
    have hf : s.devices.find? (fun x => (some i : Option Nat) == some x.id) = none := by
      rw [List.find?_eq_none]
      intro x hx h
      have hix : i = x.id := by simpa using h
      exact habs x hx hix.symm
    simp only [add_or_update_device, hf]
  · intro s nm ds loc dv hf
    refine ⟨⟨s.value_types,
      s.devices.map (fun x =>
        if x.id = dv.id then
          ⟨dv.id, if nm = "" then dv.device_name else nm,
            if ds = "" then dv.device_description else ds,
            if loc = 0 then dv.location_id else loc⟩
        else x),
      s.locations, s.values⟩, ?_, rfl, rfl, ?_⟩
    · simp only [add_or_update_device, hf, ite_not]
    · have hfind := find?_replace_by_id DeviceRow.id s.devices dv.id dv
        ⟨dv.id, if nm = "" then dv.device_name else nm,
          if ds = "" then dv.device_description else ds,
          if loc = 0 then dv.location_id else loc⟩ rfl hf
      simp only [get_device, hfind]

/-- Witness for C4: a create on a store whose sole device has id 3
(fresh id 4, supplied id 5 ignored) and an update that supplies only a
new name, leaving description and location untouched. -/
theorem upsert_device_c4_witness :
    add_or_update_device ⟨[], [⟨3, "Old", "OldD", 2⟩], [], []⟩ "N" "D" 7 (some 5) =
      (4, ⟨[], [⟨3, "Old", "OldD", 2⟩, ⟨4, "N", "D", 7⟩], [], []⟩) ∧
    ∃ s1, add_or_update_device ⟨[], [⟨3, "Old", "OldD", 2⟩], [], []⟩ "N" "" 0 (some 3) =
        (3, s1) ∧
      s1.values = [] ∧ s1.value_types = [] ∧
      get_device s1 3 = Except.ok ⟨3, "N", "OldD", 2⟩ := by
  constructor
  · have h := (upsert_device_c4.1 ⟨[], [⟨3, "Old", "OldD", 2⟩], [], []⟩ "N" "D" 7 5
      (by decide))
    simpa using h
  · have h := (upsert_device_c4.2 ⟨[], [⟨3, "Old", "OldD", 2⟩], [], []⟩ "N" "" 0
      ⟨3, "Old", "OldD", 2⟩ (by decide))
    simpa using h

/-- A store holding one location `{1, "A", "B"}` and one device with
id 1: the failing input for the location-upsert defect. -/
def locDemoState : StoreState :=
  ⟨[], [⟨1, "Device 1", "First Device", 1⟩], [⟨1, "A", "B"⟩], []⟩

/-- C5 at the failing input: `add_or_update_location "X" "Y" (some 1)`
finds a row (via the cross-joined `Device.id` lookup), writes only the
non-column `device_name`/`device_description` attributes, and commits no
change: the store is returned untouched and the location's
`location_name` is still `"A"`, not the supplied `"X"`. -/
theorem upsert_location_c5_bug :
    add_or_update_location locDemoState "X" "Y" (some 1) = (1, locDemoState) ∧
      get_location (add_or_update_location locDemoState "X" "Y" (some 1)).2 1 =
        Except.ok ⟨1, "A", "B"⟩ :=
  ⟨rfl, rfl⟩

/-- C8 counterexample: with `id` omitted but truthy name and unit
supplied, `add_or_update_value_type` does not fail at all — it creates a
new row under a fresh backend id — refuting "fails with InvalidArgument
and no row is created or modified" (the code moreover has no
`InvalidArgument` error kind). -/
theorem upsert_vt_none_c8_cex :
    add_or_update_value_type emptyStore none (some "Temp") (some "C") =
      Except.ok (⟨1, "Temp", "C"⟩, ⟨[⟨1, "Temp", "C"⟩], [], [], []⟩) :=
  rfl

/-- C8 (amended): with `id` omitted, the call fails — with an untyped
`TypeError` from `"TYPE_%d" % None` placeholder formatting, nothing
committed — exactly when name or unit is falsy; when both are supplied
truthy it instead succeeds and creates a new row under a fresh
backend-assigned id. -/
theorem upsert_vt_none_c8 (s : StoreState) (nm un : Option String) :
    (truthyS nm = true → truthyS un = true →
      add_or_update_value_type s none nm un =
        Except.ok (⟨nextId (s.value_types.map (·.id)), nm.getD "", un.getD ""⟩,
          ⟨s.value_types ++ [⟨nextId (s.value_types.map (·.id)), nm.getD "", un.getD ""⟩],
            s.devices, s.locations, s.values⟩)) ∧
    ((truthyS nm = false ∨ truthyS un = false) →
      add_or_update_value_type s none nm un = Except.error PyErr.typeError) := by
  have hf : s.value_types.find? (fun r => false) = none := by
    rw [List.find?_eq_none]
    intro x hx
    simp
  constructor
  · intro h1 h2
    simp [add_or_update_value_type, hf, h1, h2, pyFormatId]
  · intro hor
    by_cases h1 : truthyS nm = true
    · have h2 : truthyS un = false := by
        rcases hor with h | h
        · rw [h1] at h; cases h
        · exact h
      simp [add_or_update_value_type, hf, h1, h2, pyFormatId]
    · have h1f : truthyS nm = false := Bool.eq_false_iff.mpr h1
      simp [add_or_update_value_type, hf, h1f, pyFormatId]

/-- Witness for C8's amended statement: a successful creation with both
fields supplied and the `TypeError` failure with both omitted. -/
theorem upsert_vt_none_c8_witness :
    add_or_update_value_type emptyStore none (some "Kelvin") (some "K") =
      Except.ok (⟨1, "Kelvin", "K"⟩, ⟨[⟨1, "Kelvin", "K"⟩], [], [], []⟩) ∧
    add_or_update_value_type emptyStore none none none =
      Except.error PyErr.typeError := by
  constructor
  · have h := (upsert_vt_none_c8 emptyStore (some "Kelvin") (some "K")).1
      (by decide) (by decide)
    simpa using h
  · exact (upsert_vt_none_c8 emptyStore none none).2 (Or.inl (by decide))

end RdpApi
